import Mathlib

/-!
Verification of the NexMind chat client (frontend/app/chat/page.tsx).

The file shallowly embeds the chat page's two handlers and the small pure
helpers they use:

* `handleAgentStream` — the Server-Sent-Events-style relay: it POSTs to
  /api/chat/stream, reads the body chunk by chunk, splits each chunk on
  newline, and treats a line that starts with the prefix "data: " as a JSON
  event.  Events of type "step" upsert into the agent-actions list (matching
  on the step title), the first event of type "final" ends the stream and
  yields the response, an event of type "error" throws inside the per-line
  JSON-parse try/catch (which swallows it), and any parse failure on a line
  is caught and ignored.
* `handleSendMessage` — the send path: a guard on blank input or an
  in-flight request, appending the user message and a loading placeholder,
  running the stream, and on a truthy final response appending it as the bot
  message; otherwise falling back to POST /api/chat; on a thrown error
  appending the fixed service-unavailable message; finally resetting the
  loading flag.

JavaScript strings are modelled as Lean `String`, with the string methods
the page uses (`split('\n')`, `startsWith`, `slice(6)`, `trim`,
`includes`, `.length`) re-implemented structurally over `String.data` so
that every definition evaluates by kernel reduction.  `JSON.parse` is a
parameter `parse : String → Option StreamData`: `none` stands for any line
whose parse (or field access) throws, which the page's per-line catch
ignores.  Fresh identifiers built from `Date.now()`/`Math.random()` and
wall-clock timestamps are threaded as a `now : Nat` parameter or fixed
placeholders; no claim inspects them.  React's `setState` calls are modelled
as functional record updates applied in program order.
-/

/-! ## JavaScript string primitives -/

/-- Model of the JavaScript whitespace test used by `String.prototype.trim`
for the characters that can occur in this protocol. -/
def jsWhitespace (c : Char) : Bool :=
  c = ' ' || c = '\t' || c = '\n' || c = '\r'

/-- Model of JavaScript `s.trim()`: drop whitespace from both ends. -/
def jsTrim (s : String) : String :=
  String.mk (((s.data.dropWhile jsWhitespace).reverse.dropWhile jsWhitespace).reverse)

/-- Model of JavaScript `s.startsWith(pre)`. -/
def jsStartsWith (s pre : String) : Bool :=
  pre.data.isPrefixOf s.data

/-- Model of JavaScript `s.slice(n)`. -/
def jsSlice (s : String) (n : Nat) : String :=
  String.mk (s.data.drop n)

/-- Helper for `jsSplitNl`: accumulate the current line (reversed) while
scanning the characters. -/
def splitNlAux : List Char → List Char → List String
  | [], cur => [String.mk cur.reverse]
  | c :: rest, cur =>
      if c = '\n' then String.mk cur.reverse :: splitNlAux rest []
      else splitNlAux rest (c :: cur)

/-- Model of JavaScript `chunk.split('\n')`. -/
def jsSplitNl (s : String) : List String :=
  splitNlAux s.data []

/-- Substring test over character lists: some suffix of `l` has `sub` as a
prefix. -/
def containsSub : List Char → List Char → Bool
  | _, [] => true
  | [], _ :: _ => false
  | a :: rest, sub => List.isPrefixOf sub (a :: rest) || containsSub rest sub

/-- Model of JavaScript `s.includes(sub)`. -/
def jsIncludes (s sub : String) : Bool :=
  containsSub s.data sub.data

/-- JavaScript truthiness of a possibly-absent string (`undefined` and `''`
are falsy). -/
def strTruthy : Option String → Bool
  | none => false
  | some s => if s = "" then false else true

/-! ## Data model of the page (interfaces `Message` and `AgentAction`) -/

/-- The `type` field of a `Message`. -/
inductive MsgType
  | user
  | bot
deriving DecidableEq, Repr

/-- The chat page's `Message` interface.  The optional `isLoading` field is
a `Bool` whose absence in the source is the falsy default. -/
structure Message where
  id : String
  type : MsgType
  content : String
  timestamp : Nat
  isLoading : Bool
deriving DecidableEq, Repr

/-- The `type` field of an `AgentAction`. -/
inductive ActionType
  | search
  | analyze
  | generate
  | complete
deriving DecidableEq, Repr

/-- The `status` field of an `AgentAction`. -/
inductive ActionStatus
  | pending
  | running
  | completed
  | error
deriving DecidableEq, Repr

/-- The chat page's `AgentAction` interface. -/
structure AgentAction where
  id : String
  type : ActionType
  title : String
  description : String
  status : ActionStatus
  timestamp : Nat
  duration : Option Nat
deriving DecidableEq, Repr

/-! ## Stream events -/

/-- A successfully parsed stream event (`JSON.parse` of the text after
"data: ").  `step` carries step_name/description/status/timestamp, `final`
carries the possibly-absent response, `error` carries the message, and
`other` stands for a JSON object whose type matches none of the page's three
branches. -/
inductive StreamData
  | step (step_name description status : String) (timestamp : Nat)
  | final (response : Option String)
  | error (message : String)
  | other
deriving DecidableEq, Repr

/-- The classification of a step event's `step_name` into an action type
(page.tsx lines 149-151): names containing 搜索 become `search`, else 分析
becomes `analyze`, else 报告 becomes `generate`, and everything else falls
to `complete`. -/
def classifyStep (step_name : String) : ActionType :=
  if jsIncludes step_name "搜索" then ActionType.search
  else if jsIncludes step_name "分析" then ActionType.analyze
  else if jsIncludes step_name "报告" then ActionType.generate
  else ActionType.complete

/-- The classification of a step event's `status` string (page.tsx lines
154-155). -/
def classifyStatus (status : String) : ActionStatus :=
  if status = "running" then ActionStatus.running
  else if status = "completed" then ActionStatus.completed
  else ActionStatus.pending

/-- The `AgentAction` built from a step event (page.tsx lines 147-157).  The
source id `action-Date.now()-Math.random()` is a fresh nondeterministic
identifier; it is modelled by a fixed placeholder since no claim and no
other code path reads it (lookup is by title). -/
def stepAction (step_name description status : String) (timestamp : Nat) : AgentAction :=
  { id := "action-fresh"
    type := classifyStep step_name
    title := step_name
    description := description
    status := classifyStatus status
    timestamp := timestamp
    duration := none }

/-- The object spread `{ ...prev[i], ...newAction }` (page.tsx line 164):
every field of the new action overrides the old one, and `duration` — the
one field the new action does not carry — is kept from the old entry. -/
def mergeAction (old new : AgentAction) : AgentAction :=
  { new with duration := old.duration }

/-- The `setAgentActions` updater for a step event (page.tsx lines 159-170):
find the first entry with the same title and replace it in place, else
append at the end. -/
def upsertAction : List AgentAction → AgentAction → List AgentAction
  | [], na => [na]
  | a :: rest, na =>
      if a.title = na.title then mergeAction a na :: rest
      else a :: upsertAction rest na

/-! ## The streaming relay -/

/-- The state the chunk loop of `handleAgentStream` threads: the
agent-actions list and, once a final event returned, its response field
(`some response` latches the early `return data.response`). -/
structure StreamState where
  actions : List AgentAction
  result : Option (Option String)
deriving DecidableEq, Repr

/-- The text after the "data: " prefix of a line, trimmed, when the line has
that prefix (page.tsx lines 139-141). -/
def extractData (line : String) : Option String :=
  if jsStartsWith line "data: " then some (jsTrim (jsSlice line 6)) else none

/-- Processing of one line of a chunk (page.tsx lines 138-191).  Once a
final event has returned, the remaining lines are not reached.  A line
without the "data: " prefix is skipped; a line whose JSON does not parse
(`parse _ = none`) is caught and ignored; a step event upserts into the
actions; a final event latches the response; an error event throws
`new Error(data.message)` inside the same try/catch that guards
`JSON.parse`, so it is logged and swallowed — the state does not change. -/
def processLine (parse : String → Option StreamData) (st : StreamState)
    (line : String) : StreamState :=
  if st.result.isSome then st
  else
    match extractData line with
    | none => st
    | some jsonStr =>
      match parse jsonStr with
      | none => st
      | some (StreamData.step name desc status ts) =>
          { st with actions := upsertAction st.actions (stepAction name desc status ts) }
      | some (StreamData.final resp) => { st with result := some resp }
      | some (StreamData.error _) => st
      | some StreamData.other => st

/-- Processing of one decoded chunk: split on newline and fold over the
lines (page.tsx lines 134-138). -/
def processChunk (parse : String → Option StreamData) (st : StreamState)
    (chunk : String) : StreamState :=
  (jsSplitNl chunk).foldl (processLine parse) st

/-- The whole read loop of `handleAgentStream` over the decoded chunks,
starting from the empty actions list set by `setAgentActions([])`. -/
def processStream (parse : String → Option StreamData)
    (chunks : List String) : StreamState :=
  chunks.foldl (processChunk parse) { actions := [], result := none }

/-! ## Requests and application state -/

/-- The JSON body both endpoints receive (page.tsx lines 113-116 and
254-257): exactly a message and a conversation_id, nothing else. -/
structure ChatRequest where
  message : String
  conversation_id : String
deriving DecidableEq, Repr

/-- A network request the client issues: the streaming POST to
/api/chat/stream or the fallback POST to /api/chat. -/
inductive RequestRecord
  | streamPost (body : ChatRequest)
  | chatPost (body : ChatRequest)
deriving DecidableEq, Repr

/-- The body a request carries. -/
def RequestRecord.body : RequestRecord → ChatRequest
  | RequestRecord.streamPost b => b
  | RequestRecord.chatPost b => b

/-- The component state of the chat page (the `useState` hooks of `Home`). -/
structure AppState where
  messages : List Message
  inputValue : String
  isLoading : Bool
  agentActions : List AgentAction
  showAgentPanel : Bool
  showChatHistory : Bool
  showReportPanel : Bool
  currentReport : String
  reportTitle : String
deriving DecidableEq, Repr

/-- How the upstream behaves on the streaming POST: the response is not ok,
the body has no reader, or the body delivers these decoded chunks and ends. -/
inductive StreamOutcome
  | httpFail
  | noReader
  | ok (chunks : List String)
deriving DecidableEq, Repr

/-- How `handleAgentStream` returns to its caller: the value of
`return data.response` (or `none` when the loop ends without a final event
and the function returns undefined), or a thrown error. -/
inductive StreamResult
  | success (resp : Option String)
  | failure
deriving DecidableEq, Repr

/-- How the fallback POST /api/chat behaves: it resolves with a
possibly-absent `response` field, or it rejects. -/
inductive FallbackOutcome
  | ok (resp : Option String)
  | fail
deriving DecidableEq, Repr

/-- What one call of `handleAgentStream` produces: the state after its
setState calls, its return-or-throw, and the requests it issued. -/
structure StreamCall where
  state : AppState
  result : StreamResult
  requests : List RequestRecord
deriving DecidableEq, Repr

/-- What one call of `handleSendMessage` produces: the state after it and
the requests issued during it. -/
structure SendOutput where
  state : AppState
  requests : List RequestRecord
deriving DecidableEq, Repr

/-- The action appended by the catch block of `handleAgentStream` (page.tsx
lines 197-204); its id `error-Date.now()` is modelled by a placeholder. -/
def errorAction (now : Nat) : AgentAction :=
  { id := "error-fresh"
    type := ActionType.complete
    title := "处理错误"
    description := "处理过程中发生错误，请重试"
    status := ActionStatus.error
    timestamp := now
    duration := none }

/-- The fixed report title `企业分析报告 - date` (page.tsx lines 176 and
272). -/
def reportTitleFor (dateStr : String) : String :=
  "企业分析报告 - " ++ dateStr

/-- `handleAgentStream` (page.tsx lines 103-207): show the agent panel,
clear the actions, POST the query with conversation_id "default", then
either throw (non-ok response or missing reader: the catch appends one
error-status action and rethrows) or run the chunk loop.  A final event's
response over 500 characters opens the report panel before the response is
returned.  The `setTimeout` that collapses the agent panel two seconds later
is outside the synchronous transition and no claim mentions it. -/
def handleAgentStream (parse : String → Option StreamData)
    (outcome : StreamOutcome) (dateStr : String) (query : String) (now : Nat)
    (st : AppState) : StreamCall :=
  let st0 := { st with showAgentPanel := true, agentActions := ([] : List AgentAction) }
  let req := RequestRecord.streamPost { message := query, conversation_id := "default" }
  match outcome with
  | StreamOutcome.httpFail =>
      { state := { st0 with agentActions := st0.agentActions ++ [errorAction now] }
        result := StreamResult.failure
        requests := [req] }
  | StreamOutcome.noReader =>
      { state := { st0 with agentActions := st0.agentActions ++ [errorAction now] }
        result := StreamResult.failure
        requests := [req] }
  | StreamOutcome.ok chunks =>
      let s := processStream parse chunks
      let st1 := { st0 with agentActions := s.actions }
      match s.result with
      | some resp =>
          let st2 :=
            if strTruthy resp && decide (500 < (resp.getD "").length) then
              { st1 with currentReport := resp.getD ""
                         reportTitle := reportTitleFor dateStr
                         showReportPanel := true }
            else st1
          { state := st2, result := StreamResult.success resp, requests := [req] }
      | none =>
          { state := st1, result := StreamResult.success none, requests := [req] }

/-- The fixed texts of the send path (page.tsx lines 231, 264 and 283). -/
def loadingText : String := "正在分析中，请稍候..."

/-- The default bot reply when the fallback response is falsy. -/
def fallbackDefaultText : String := "抱歉，我暂时无法处理您的请求。请稍后再试。"

/-- The bot reply of the catch block of `handleSendMessage`. -/
def serviceUnavailableText : String := "抱歉，服务暂时不可用。请检查后端服务是否正常运行。"

/-- The filter `prev.filter(msg => !msg.isLoading)` (page.tsx lines 244,
260 and 279). -/
def removeLoading (msgs : List Message) : List Message :=
  msgs.filter (fun m => !m.isLoading)

/-- The user message appended at the start of a send (page.tsx lines
212-217). -/
def userMessage (now : Nat) (content : String) : Message :=
  { id := toString now, type := MsgType.user, content := content,
    timestamp := now, isLoading := false }

/-- The loading placeholder (page.tsx lines 228-234). -/
def loadingMessage (now : Nat) : Message :=
  { id := toString (now + 1), type := MsgType.bot, content := loadingText,
    timestamp := now, isLoading := true }

/-- The bot message appended when a send resolves (page.tsx lines 245-250,
261-266 and 280-285 all build this same shape with id `Date.now() + 2`). -/
def respMessage (now : Nat) (content : String) : Message :=
  { id := toString (now + 2), type := MsgType.bot, content := content,
    timestamp := now, isLoading := false }

/-- The tail of `handleSendMessage` after `handleAgentStream` returns
(page.tsx lines 240-286): a truthy final response is appended verbatim as
the bot message; otherwise the fallback POST /api/chat is issued and its
response (or the default text) appended, opening the report panel when the
fallback response exceeds 500 characters; a thrown error is caught and the
fixed service-unavailable text appended.  Every branch first removes the
loading placeholders. -/
def sendFinish (fo : FallbackOutcome) (dateStr : String) (query : String)
    (now : Nat) (call : StreamCall) : SendOutput :=
  match call.result with
  | StreamResult.failure =>
      { state := { call.state with
          messages := removeLoading call.state.messages
            ++ [respMessage now serviceUnavailableText] }
        requests := call.requests }
  | StreamResult.success finalResponse =>
      if strTruthy finalResponse then
        { state := { call.state with
            messages := removeLoading call.state.messages
              ++ [respMessage now (finalResponse.getD "")] }
          requests := call.requests }
      else
        let req2 := RequestRecord.chatPost { message := query, conversation_id := "default" }
        match fo with
        | FallbackOutcome.fail =>
            { state := { call.state with
                messages := removeLoading call.state.messages
                  ++ [respMessage now serviceUnavailableText] }
              requests := call.requests ++ [req2] }
        | FallbackOutcome.ok resp =>
            let content := if strTruthy resp then resp.getD "" else fallbackDefaultText
            let st1 := { call.state with
                messages := removeLoading call.state.messages
                  ++ [respMessage now content] }
            let st2 :=
              if strTruthy resp && decide (500 < (resp.getD "").length) then
                { st1 with currentReport := resp.getD ""
                           reportTitle := reportTitleFor dateStr
                           showReportPanel := true }
              else st1
            { state := st2, requests := call.requests ++ [req2] }

/-- The state after the head of `handleSendMessage` past the guard (page.tsx
lines 212-235): append the user message, clear the input, raise the loading
flag, show the agent panel, clear the actions and the report, and append the
loading placeholder. -/
def sendPrepared (now : Nat) (st : AppState) : AppState :=
  { st with
      messages := (st.messages ++ [userMessage now st.inputValue]) ++ [loadingMessage now]
      inputValue := ""
      isLoading := true
      showAgentPanel := true
      agentActions := ([] : List AgentAction)
      currentReport := ""
      showReportPanel := false }

/-- `handleSendMessage` (page.tsx lines 209-290).  The guard returns
untouched state and issues nothing when the trimmed input is empty or a
request is in flight.  Otherwise the user message, the state resets and the
loading placeholder are applied (`sendPrepared`), the stream runs,
`sendFinish` resolves the response, and the `finally` branch resets
`isLoading`. -/
def handleSendMessage (parse : String → Option StreamData)
    (so : StreamOutcome) (fo : FallbackOutcome) (dateStr : String) (now : Nat)
    (st : AppState) : SendOutput :=
  if jsTrim st.inputValue = "" ∨ st.isLoading = true then
    { state := st, requests := [] }
  else
    let call := handleAgentStream parse so dateStr st.inputValue now (sendPrepared now st)
    let fin := sendFinish fo dateStr st.inputValue now call
    { state := { fin.state with isLoading := false }, requests := fin.requests }

/-! ## Rendering -/

/-- How a message bubble is rendered (page.tsx lines 420-428): markdown for
a bot message whose content exceeds 500 characters, pre-wrapped plain text
otherwise. -/
inductive RenderMode
  | markdown
  | plainPre
deriving DecidableEq, Repr

/-- The render decision of page.tsx lines 420-428. -/
def renderMode (m : Message) : RenderMode :=
  if m.type = MsgType.bot ∧ 500 < m.content.length then RenderMode.markdown
  else RenderMode.plainPre

/-! ## Spec-modelled stage names

The backend (backend/app/core/agent.py) that emits the step events is not
among the staged sources; only the spec names its stages. -/

/-- Modelled from the spec: the pipeline's first stage is named plan
("plan → search → analyze → report"); the backend code that chooses its
Chinese step_name string is missing from the sources.  The title 制定计划
is the plan stage rendered the way the repository titles its stages in
Chinese; it contains none of the three keywords 搜索, 分析, 报告 the client
classifier keys on. -/
def planStageName : String := "制定计划"

/-- Modelled from the spec: the search stage's step title, containing the
keyword 搜索 (the title the repository's earlier simulated pipeline used). -/
def searchStageName : String := "搜索企业信息"

/-- Modelled from the spec: the analyze stage's step title, containing the
keyword 分析. -/
def analyzeStageName : String := "数据分析"

/-- Modelled from the spec: the report stage's step title, containing the
keyword 报告. -/
def reportStageName : String := "生成报告"

/-! ## Concrete values for the closed instances -/

/-- A report body of 501 characters, just over the markdown/report-panel
threshold. -/
def demoReport : String := String.mk (List.replicate 501 'R')

/-- A concrete decoder standing for `JSON.parse` on a handful of payloads:
two step events for the search stage, one for the analyze stage, a short
final event, a long final event and an error event; everything else fails
to parse. -/
def demoParse : String → Option StreamData := fun s =>
  if s = "S1" then some (StreamData.step "搜索企业信息" "d1" "running" 1)
  else if s = "S1b" then some (StreamData.step "搜索企业信息" "d2" "completed" 2)
  else if s = "S2" then some (StreamData.step "数据分析" "d3" "running" 3)
  else if s = "F0" then some (StreamData.final (some "ok"))
  else if s = "F" then some (StreamData.final (some demoReport))
  else if s = "E" then some (StreamData.error "boom")
  else none

/-- The greeting the page mounts with. -/
def welcomeText : String := "您好！我是NexMind智能分析助手。请告诉我您想了解哪家中国公司的详细信息，我将为您生成comprehensive的企业分析报告。"

/-- The page's initial state with a query typed into the input box. -/
def demoState : AppState :=
  { messages := [{ id := "1", type := MsgType.bot, content := welcomeText,
                   timestamp := 0, isLoading := false }]
    inputValue := "分析腾讯"
    isLoading := false
    agentActions := []
    showAgentPanel := false
    showChatHistory := false
    showReportPanel := false
    currentReport := ""
    reportTitle := "" }

/-- The page's initial state with only whitespace typed. -/
def demoIdleState : AppState := { demoState with inputValue := "   " }

/-! ## Helper lemmas shared by the claims -/

theorem handleSendMessage_eq (parse : String → Option StreamData)
    (so : StreamOutcome) (fo : FallbackOutcome) (dateStr : String) (now : Nat)
    (st : AppState) (hg : ¬(jsTrim st.inputValue = "" ∨ st.isLoading = true)) :
    handleSendMessage parse so fo dateStr now st =
      { state := { (sendFinish fo dateStr st.inputValue now
            (handleAgentStream parse so dateStr st.inputValue now (sendPrepared now st))).state
            with isLoading := false }
        requests := (sendFinish fo dateStr st.inputValue now
            (handleAgentStream parse so dateStr st.inputValue now (sendPrepared now st))).requests } := by
  unfold handleSendMessage
  rw [if_neg hg]

theorem handleAgentStream_requests (parse : String → Option StreamData)
    (outcome : StreamOutcome) (dateStr query : String) (now : Nat) (st : AppState) :
    (handleAgentStream parse outcome dateStr query now st).requests =
      [RequestRecord.streamPost { message := query, conversation_id := "default" }] := by
  unfold handleAgentStream
  cases outcome with
  | httpFail => rfl
  | noReader => rfl
  | ok chunks =>
      cases h : (processStream parse chunks).result with
      | none => simp [h]
      | some resp => simp [h]

theorem sendFinish_requests (fo : FallbackOutcome) (dateStr query : String)
    (now : Nat) (call : StreamCall) :
    (sendFinish fo dateStr query now call).requests = call.requests ∨
    (sendFinish fo dateStr query now call).requests =
      call.requests ++ [RequestRecord.chatPost { message := query, conversation_id := "default" }] := by
  unfold sendFinish
  rcases call with ⟨cst, cres, creqs⟩
  cases cres with
  | failure => exact Or.inl rfl
  | success fr =>
      by_cases hT : strTruthy fr = true
      · exact Or.inl (by simp [hT])
      · cases fo with
        | fail => exact Or.inr (by simp [hT])
        | ok resp =>
            by_cases hGate : (strTruthy resp && decide (500 < (resp.getD "").length)) = true
            · exact Or.inr (by simp [hT, hGate])
            · exact Or.inr (by simp [hT, hGate])

/-! ## Claim C2 — stage classification -/

/-- C2 counterexample: the plan stage's step name is classified to
`ActionType.complete` — exactly the value `classifyStep` assigns any step
name containing none of its three keywords, i.e. the catch-all — so the
four stages do not each get a distinct, stage-specific action type. -/
theorem plan_stage_hits_catch_all :
    classifyStep planStageName = ActionType.complete ∧
    classifyStep "与任何阶段无关的名字" = ActionType.complete := by
  decide

/-- C2 (amended): the pipeline's four stages are plan, search, analyze and
report, but only three map to distinct stage-specific action types — a
step_name containing 搜索 to `search`, 分析 to `analyze`, 报告 to
`generate` — while the plan stage's name, carrying none of the keywords,
falls to the catch-all `complete`. -/
theorem stage_keyword_classification :
    classifyStep searchStageName = ActionType.search ∧
    classifyStep analyzeStageName = ActionType.analyze ∧
    classifyStep reportStageName = ActionType.generate ∧
    classifyStep planStageName = ActionType.complete ∧
    [ActionType.search, ActionType.analyze, ActionType.generate].Nodup := by
  decide

/-! ## Claim C3 — conversation identified only by the constant id -/

/-- C3: every request `handleSendMessage` issues — the streaming POST to
/api/chat/stream and, when it runs, the fallback POST to /api/chat —
carries conversation_id "default"; the `ChatRequest` body consists of
exactly the message and that constant id, so no other conversation state
crosses a request. -/
theorem all_requests_use_default_conversation_id
    (parse : String → Option StreamData) (so : StreamOutcome) (fo : FallbackOutcome)
    (dateStr : String) (now : Nat) (st : AppState) :
    ∀ r ∈ (handleSendMessage parse so fo dateStr now st).requests,
      (RequestRecord.body r).conversation_id = "default" := by
  intro r hr
  by_cases hg : jsTrim st.inputValue = "" ∨ st.isLoading = true
  · unfold handleSendMessage at hr
    rw [if_pos hg] at hr
    simp at hr
  · rw [handleSendMessage_eq parse so fo dateStr now st hg] at hr
    simp only at hr
    rcases sendFinish_requests fo dateStr st.inputValue now
        (handleAgentStream parse so dateStr st.inputValue now (sendPrepared now st)) with h | h <;>
      rw [h, handleAgentStream_requests] at hr
    · simp at hr
      subst hr
      rfl
    · rcases List.mem_append.mp hr with h1 | h1 <;> simp at h1 <;> subst h1 <;> rfl

/-- Closed instance of C3 at a concrete run. -/
theorem all_requests_use_default_conversation_id_witness :
    (RequestRecord.body (RequestRecord.streamPost
        { message := "分析腾讯", conversation_id := "default" })).conversation_id = "default" :=
  all_requests_use_default_conversation_id demoParse (StreamOutcome.ok []) FallbackOutcome.fail
    "d" 7 demoState
    (RequestRecord.streamPost { message := "分析腾讯", conversation_id := "default" }) (by decide)

/-! ## Claim C8 — the send guard -/

/-- C8: when the trimmed input is empty (so the input was empty or
whitespace-only) or a request is already in flight, `handleSendMessage` is
a no-op: it returns the state untouched — messages, input value and
agent-actions included — and issues no network request; in particular a
call made while `isLoading` is true issues nothing, so at most one chat
request is in flight at a time. -/
theorem send_message_guard_no_op
    (parse : String → Option StreamData) (so : StreamOutcome) (fo : FallbackOutcome)
    (dateStr : String) (now : Nat) (st : AppState)
    (h : jsTrim st.inputValue = "" ∨ st.isLoading = true) :
    handleSendMessage parse so fo dateStr now st = { state := st, requests := [] } := by
  unfold handleSendMessage
  rw [if_pos h]

/-- Closed instance of C8 on whitespace-only input. -/
theorem send_message_guard_no_op_witness :
    handleSendMessage demoParse (StreamOutcome.ok ["data: F0"]) FallbackOutcome.fail "d" 7
        demoIdleState =
      { state := demoIdleState, requests := [] } :=
  send_message_guard_no_op demoParse (StreamOutcome.ok ["data: F0"]) FallbackOutcome.fail "d" 7
    demoIdleState (Or.inl (by decide))

/-! ## Stream lemmas for claims C1, C6 and C7 -/

theorem processLine_skips_non_data (parse : String → Option StreamData)
    (st : StreamState) (line : String)
    (h : jsStartsWith line "data: " = false) :
    processLine parse st line = st := by
  unfold processLine
  by_cases hs : st.result.isSome = true
  · rw [if_pos hs]
  · rw [if_neg hs]
    simp [extractData, h]

theorem foldl_processLine_skips (parse : String → Option StreamData)
    (lines : List String) :
    ∀ st : StreamState, (∀ line ∈ lines, jsStartsWith line "data: " = false) →
      lines.foldl (processLine parse) st = st := by
  induction lines with
  | nil => intro st _; rfl
  | cons l rest ih =>
      intro st h
      rw [List.foldl_cons, processLine_skips_non_data parse st l (h l (by simp))]
      exact ih st (fun line hl => h line (by simp [hl]))

theorem processLine_result_none (parse : String → Option StreamData)
    (st : StreamState) (line : String)
    (h0 : st.result = none)
    (h : ∀ j, extractData line = some j →
        ∀ resp, parse j ≠ some (StreamData.final resp)) :
    (processLine parse st line).result = none := by
  unfold processLine
  rw [h0]
  simp only [Option.isSome_none, Bool.false_eq_true, if_false]
  cases hE : extractData line with
  | none => exact h0
  | some j =>
      dsimp only
      cases hP : parse j with
      | none => exact h0
      | some d =>
          cases d with
          | step name desc status ts => dsimp only
          | final resp => exact absurd hP (h j hE resp)
          | error m => exact h0
          | other => exact h0

theorem foldl_processLine_result_none (parse : String → Option StreamData)
    (lines : List String) :
    ∀ st : StreamState, st.result = none →
      (∀ line ∈ lines, ∀ j, extractData line = some j →
        ∀ resp, parse j ≠ some (StreamData.final resp)) →
      (lines.foldl (processLine parse) st).result = none := by
  induction lines with
  | nil => intro st h0 _; exact h0
  | cons l rest ih =>
      intro st h0 h
      rw [List.foldl_cons]
      refine ih _ (processLine_result_none parse st l h0 ?_) ?_
      · intro j hj resp
        exact h l (by simp) j hj resp
      · intro line hl j hj resp
        exact h line (by simp [hl]) j hj resp

theorem processStream_result_none (parse : String → Option StreamData)
    (chunks : List String)
    (h : ∀ c ∈ chunks, ∀ line ∈ jsSplitNl c, ∀ j, extractData line = some j →
        ∀ resp, parse j ≠ some (StreamData.final resp)) :
    (processStream parse chunks).result = none := by
  unfold processStream
  have aux : ∀ (cs : List String) (st : StreamState), st.result = none →
      (∀ c ∈ cs, ∀ line ∈ jsSplitNl c, ∀ j, extractData line = some j →
        ∀ resp, parse j ≠ some (StreamData.final resp)) →
      (cs.foldl (processChunk parse) st).result = none := by
    intro cs
    induction cs with
    | nil => intro st h0 _; exact h0
    | cons c rest ih =>
        intro st h0 hcs
        rw [List.foldl_cons]
        refine ih _ ?_ ?_
        · unfold processChunk
          exact foldl_processLine_result_none parse (jsSplitNl c) st h0
            (fun line hl j hj resp => hcs c (by simp) line hl j hj resp)
        · intro cc hcc line hl j hj resp
          exact hcs cc (by simp [hcc]) line hl j hj resp
  exact aux chunks { actions := [], result := none } rfl h

/-! ## Claim C1 — stage progress is surfaced incrementally -/

/-- C1: a line of the form "data: json" whose event has type step updates
the agent-actions list the moment it is processed — the very next state
already carries the upsert (append-or-update, see `upsertAction`) and no
final result yet — while the relayed chat response can only come from an
event of type final: a stream none of whose data lines parses to a final
event ends with no response at all. -/
theorem step_events_update_actions_incrementally
    (parse : String → Option StreamData) (chunks : List String) :
    (∀ (st : StreamState) (line j name desc status : String) (ts : Nat),
        st.result = none →
        extractData line = some j →
        parse j = some (StreamData.step name desc status ts) →
        processLine parse st line =
          { actions := upsertAction st.actions (stepAction name desc status ts)
            result := none }) ∧
    ((∀ c ∈ chunks, ∀ line ∈ jsSplitNl c, ∀ j, extractData line = some j →
        ∀ resp, parse j ≠ some (StreamData.final resp)) →
      (processStream parse chunks).result = none) := by
  constructor
  · intro st line j name desc status ts hres hline hparse
    rcases st with ⟨acts, res⟩
    simp only at hres
    subst hres
    unfold processLine
    simp [hline, hparse]
  · exact processStream_result_none parse chunks

/-! ## Claim C6 — the SSE line protocol -/

/-- C6: a chunk is split on newline and only lines starting with "data: "
are parsed as events; a chunk none of whose lines carries that prefix
leaves the relay state — the agent-actions list and the latched result —
exactly unchanged (the message list lives outside `StreamState` and is
never touched by the chunk loop at all). -/
theorem non_data_lines_leave_state_unchanged (parse : String → Option StreamData)
    (st : StreamState) (chunk : String)
    (h : ∀ line ∈ jsSplitNl chunk, jsStartsWith line "data: " = false) :
    processChunk parse st chunk = st := by
  unfold processChunk
  exact foldl_processLine_skips parse (jsSplitNl chunk) st h

/-- Closed instance of C6 on a chunk of comment, blank and retry lines. -/
theorem non_data_lines_leave_state_unchanged_witness :
    processChunk demoParse { actions := [], result := none } "ping\n\nretry: 5" =
      { actions := [], result := none } :=
  non_data_lines_leave_state_unchanged demoParse { actions := [], result := none }
    "ping\n\nretry: 5" (by decide)

/-! ## Claim C7 — arrival order and uniqueness of action titles -/

/-- The titles of an action list, in display order. -/
def titlesOf (l : List AgentAction) : List String := l.map AgentAction.title

/-- The first-arrival order of a sequence of titles: each title appears
once, at the place of its first occurrence; titles already seen are
dropped. -/
def firstOccurrences (seen : List String) : List String → List String
  | [] => []
  | t :: rest =>
      if t ∈ seen then firstOccurrences seen rest
      else t :: firstOccurrences (t :: seen) rest

theorem upsert_not_mem (acts : List AgentAction) (na : AgentAction)
    (h : na.title ∉ titlesOf acts) : upsertAction acts na = acts ++ [na] := by
  induction acts with
  | nil => rfl
  | cons a rest ih =>
      have h1 : ¬ a.title = na.title := by
        intro e
        exact h (by simp [titlesOf, e])
      have h2 : na.title ∉ titlesOf rest := by
        intro m
        exact h (by simp [titlesOf] at m ⊢; exact Or.inr m)
      rw [upsertAction, if_neg h1, ih h2, List.cons_append]

theorem titles_upsert_mem (acts : List AgentAction) (na : AgentAction)
    (h : na.title ∈ titlesOf acts) : titlesOf (upsertAction acts na) = titlesOf acts := by
  induction acts with
  | nil => simp [titlesOf] at h
  | cons a rest ih =>
      by_cases h1 : a.title = na.title
      · rw [upsertAction, if_pos h1]
        simp [titlesOf, mergeAction, h1]
      · have h2 : na.title ∈ titlesOf rest := by
          simp [titlesOf] at h ⊢
          rcases h with h | h
          · exact absurd h.symm h1
          · exact h
        rw [upsertAction, if_neg h1]
        have hc : titlesOf (a :: upsertAction rest na) =
            a.title :: titlesOf (upsertAction rest na) := rfl
        rw [hc, ih h2]
        rfl

theorem firstOccurrences_congr (l : List String) :
    ∀ s1 s2 : List String, (∀ x, x ∈ s1 ↔ x ∈ s2) →
      firstOccurrences s1 l = firstOccurrences s2 l := by
  induction l with
  | nil => intro s1 s2 _; rfl
  | cons t rest ih =>
      intro s1 s2 h
      by_cases ht : t ∈ s1
      · rw [firstOccurrences, if_pos ht, firstOccurrences, if_pos ((h t).mp ht)]
        exact ih s1 s2 h
      · rw [firstOccurrences, if_neg ht, firstOccurrences,
            if_neg (fun m => ht ((h t).mpr m))]
        refine congrArg (List.cons t) (ih (t :: s1) (t :: s2) ?_)
        intro x
        simp [h x]

theorem titles_foldl_upsert (steps : List AgentAction) :
    ∀ acc : List AgentAction,
      titlesOf (steps.foldl upsertAction acc) =
        titlesOf acc ++ firstOccurrences (titlesOf acc) (titlesOf steps) := by
  induction steps with
  | nil =>
      intro acc
      simp [titlesOf, firstOccurrences]
  | cons s rest ih =>
      intro acc
      rw [List.foldl_cons]
      have hts : titlesOf (s :: rest) = s.title :: titlesOf rest := rfl
      by_cases hmem : s.title ∈ titlesOf acc
      · rw [ih (upsertAction acc s), titles_upsert_mem acc s hmem, hts,
            firstOccurrences, if_pos hmem]
      · rw [ih (upsertAction acc s), upsert_not_mem acc s hmem, hts,
            firstOccurrences, if_neg hmem]
        have hta : titlesOf (acc ++ [s]) = titlesOf acc ++ [s.title] := by
          simp [titlesOf]
        rw [hta, firstOccurrences_congr (titlesOf rest) (titlesOf acc ++ [s.title])
            (s.title :: titlesOf acc) (by intro x; simp [or_comm])]
        simp

theorem firstOccurrences_nodup (l : List String) :
    ∀ seen : List String,
      (firstOccurrences seen l).Nodup ∧ ∀ x ∈ firstOccurrences seen l, x ∉ seen := by
  induction l with
  | nil => intro seen; exact ⟨List.nodup_nil, by simp [firstOccurrences]⟩
  | cons t rest ih =>
      intro seen
      by_cases ht : t ∈ seen
      · rw [firstOccurrences, if_pos ht]
        exact ih seen
      · rw [firstOccurrences, if_neg ht]
        obtain ⟨hnd, hout⟩ := ih (t :: seen)
        constructor
        · refine List.nodup_cons.mpr ⟨?_, hnd⟩
          intro hmem
          exact hout t hmem (by simp)
        · intro x hx
          rcases List.mem_cons.mp hx with h | h
          · subst h; exact ht
          · intro hxs
            exact hout x h (by simp [hxs])

/-- C7: the upsert of a step event appends an unseen title at the end and
updates a seen title in place (the title sequence is unchanged, so nothing
moves); consequently, over any sequence of step events starting from the
cleared list, the panel's titles equal the first-arrival order of the step
titles and never contain a duplicate. -/
theorem actions_keep_first_arrival_order
    (acts : List AgentAction) (na : AgentAction) (steps : List AgentAction) :
    (na.title ∉ titlesOf acts → upsertAction acts na = acts ++ [na]) ∧
    (na.title ∈ titlesOf acts → titlesOf (upsertAction acts na) = titlesOf acts) ∧
    titlesOf (steps.foldl upsertAction []) = firstOccurrences [] (titlesOf steps) ∧
    (titlesOf (steps.foldl upsertAction [])).Nodup := by
  refine ⟨upsert_not_mem acts na, titles_upsert_mem acts na, ?_, ?_⟩
  · have := titles_foldl_upsert steps []
    simpa [titlesOf] using this
  · rw [titles_foldl_upsert steps []]
    have := (firstOccurrences_nodup (titlesOf steps) []).1
    simpa [titlesOf] using this

/-! ## Send-path lemmas for claims C4, C5, C9 and C10 -/

theorem isLoading_false_of_mem_removeLoading (l : List Message) (m : Message)
    (h : m ∈ removeLoading l) : m.isLoading = false := by
  unfold removeLoading at h
  have := (List.mem_filter.mp h).2
  simpa using this

theorem handleAgentStream_result (parse : String → Option StreamData)
    (chunks : List String) (dateStr query : String) (now : Nat) (st : AppState) :
    (handleAgentStream parse (StreamOutcome.ok chunks) dateStr query now st).result =
      StreamResult.success ((processStream parse chunks).result.getD none) := by
  unfold handleAgentStream
  cases h : (processStream parse chunks).result with
  | none => simp [h]
  | some resp => simp [h]

theorem handleAgentStream_messages (parse : String → Option StreamData)
    (outcome : StreamOutcome) (dateStr query : String) (now : Nat) (st : AppState) :
    (handleAgentStream parse outcome dateStr query now st).state.messages = st.messages := by
  unfold handleAgentStream
  cases outcome with
  | httpFail => rfl
  | noReader => rfl
  | ok chunks =>
      cases h : (processStream parse chunks).result with
      | none => simp [h]
      | some resp =>
          by_cases hGate : (strTruthy resp && decide (500 < (resp.getD "").length)) = true
          · simp [h, hGate]
          · simp [h, hGate]

theorem sendFinish_messages_shape (fo : FallbackOutcome) (dateStr query : String)
    (now : Nat) (call : StreamCall) :
    ∃ c, (sendFinish fo dateStr query now call).state.messages =
      removeLoading call.state.messages ++ [respMessage now c] := by
  unfold sendFinish
  rcases call with ⟨cst, cres, creqs⟩
  cases cres with
  | failure => exact ⟨serviceUnavailableText, rfl⟩
  | success fr =>
      by_cases hT : strTruthy fr = true
      · exact ⟨fr.getD "", by simp [hT]⟩
      · cases fo with
        | fail => exact ⟨serviceUnavailableText, by simp [hT]⟩
        | ok resp =>
            by_cases hGate : (strTruthy resp && decide (500 < (resp.getD "").length)) = true
            · exact ⟨if strTruthy resp = true then resp.getD "" else fallbackDefaultText,
                by simp [hT, hGate]⟩
            · exact ⟨if strTruthy resp = true then resp.getD "" else fallbackDefaultText,
                by simp [hT, hGate]⟩

theorem sendFinish_messages_of_truthy (fo : FallbackOutcome) (dateStr query : String)
    (now : Nat) (call : StreamCall) (r : String)
    (hres : call.result = StreamResult.success (some r)) (hne : r ≠ "") :
    (sendFinish fo dateStr query now call).state.messages =
      removeLoading call.state.messages ++ [respMessage now r] := by
  have hT : strTruthy (some r) = true := by simp [strTruthy, hne]
  unfold sendFinish
  rw [hres]
  simp [hT]

theorem handleAgentStream_report_none (parse : String → Option StreamData)
    (chunks : List String) (dateStr query : String) (now : Nat) (st : AppState)
    (hr : (processStream parse chunks).result = none) :
    (handleAgentStream parse (StreamOutcome.ok chunks) dateStr query now st).state.currentReport =
        st.currentReport ∧
    (handleAgentStream parse (StreamOutcome.ok chunks) dateStr query now st).state.showReportPanel =
        st.showReportPanel := by
  unfold handleAgentStream
  simp [hr]

theorem handleAgentStream_report_final (parse : String → Option StreamData)
    (chunks : List String) (dateStr query : String) (now : Nat) (st : AppState) (r : String)
    (hr : (processStream parse chunks).result = some (some r)) (hne : r ≠ "") :
    ((handleAgentStream parse (StreamOutcome.ok chunks) dateStr query now st).state.currentReport,
     (handleAgentStream parse (StreamOutcome.ok chunks) dateStr query now st).state.showReportPanel) =
      if 500 < r.length then (r, true) else (st.currentReport, st.showReportPanel) := by
  have hT : strTruthy (some r) = true := by simp [strTruthy, hne]
  unfold handleAgentStream
  by_cases hlen : 500 < r.length
  · simp [hr, hT, hlen]
  · simp [hr, hT, hlen]

theorem sendFinish_report_of_truthy (fo : FallbackOutcome) (dateStr query : String)
    (now : Nat) (call : StreamCall) (r : String)
    (hres : call.result = StreamResult.success (some r)) (hne : r ≠ "") :
    (sendFinish fo dateStr query now call).state.currentReport = call.state.currentReport ∧
    (sendFinish fo dateStr query now call).state.showReportPanel = call.state.showReportPanel := by
  have hT : strTruthy (some r) = true := by simp [strTruthy, hne]
  unfold sendFinish
  rw [hres]
  simp [hT]

theorem sendFinish_report_of_fallback (dateStr query : String) (now : Nat)
    (call : StreamCall) (r : String)
    (hres : call.result = StreamResult.success none) :
    ((sendFinish (FallbackOutcome.ok (some r)) dateStr query now call).state.currentReport,
     (sendFinish (FallbackOutcome.ok (some r)) dateStr query now call).state.showReportPanel) =
      if r ≠ "" ∧ 500 < r.length then (r, true)
      else (call.state.currentReport, call.state.showReportPanel) := by
  unfold sendFinish
  rw [hres]
  by_cases hne : r = ""
  · subst hne
    simp [strTruthy]
  · have hT : strTruthy (some r) = true := by simp [strTruthy, hne]
    by_cases hlen : 500 < r.length
    · simp [strTruthy, hT, hlen, hne]
    · simp [strTruthy, hT, hlen, hne]

/-! ## Claim C5 — the final response is relayed verbatim -/

/-- C5: when the stream latches a final event with a non-empty response,
the bot message `handleSendMessage` appends is exactly that response —
`respMessage now r` carries content `r`, character for character, with no
transformation, truncation or reordering. -/
theorem final_response_relayed_verbatim (parse : String → Option StreamData)
    (chunks : List String) (fo : FallbackOutcome) (dateStr : String) (now : Nat)
    (st : AppState) (r : String)
    (hg : ¬(jsTrim st.inputValue = "" ∨ st.isLoading = true))
    (hr : (processStream parse chunks).result = some (some r))
    (hne : r ≠ "") :
    ((handleSendMessage parse (StreamOutcome.ok chunks) fo dateStr now st).state.messages).getLast? =
        some (respMessage now r) ∧
    (respMessage now r).content = r := by
  refine ⟨?_, rfl⟩
  rw [handleSendMessage_eq parse (StreamOutcome.ok chunks) fo dateStr now st hg]
  dsimp only
  have hres : (handleAgentStream parse (StreamOutcome.ok chunks) dateStr st.inputValue now
      (sendPrepared now st)).result = StreamResult.success (some r) := by
    rw [handleAgentStream_result, hr]
    rfl
  rw [sendFinish_messages_of_truthy fo dateStr st.inputValue now _ r hres hne]
  exact List.getLast?_concat _

/-- Closed instance of C5: a stream with one step event and a final
response "ok" ends with the bot message "ok". -/
theorem final_response_relayed_verbatim_witness :
    ((handleSendMessage demoParse (StreamOutcome.ok ["data: S1", "data: F0"])
        FallbackOutcome.fail "d" 7 demoState).state.messages).getLast? =
          some (respMessage 7 "ok") ∧
    (respMessage 7 "ok").content = "ok" :=
  final_response_relayed_verbatim demoParse ["data: S1", "data: F0"] FallbackOutcome.fail
    "d" 7 demoState "ok" (by decide) (by decide) (by decide)

/-! ## Claim C9 — no loading placeholder survives a completed send -/

/-- C9: whichever way a non-guarded send completes — stream success,
fallback success, fallback failure or a thrown stream error — every branch
filters out all loading placeholders before appending its (non-loading) bot
message, and the finally branch resets the loading flag, so the resulting
message list contains no message with isLoading true and isLoading is
false. -/
theorem no_loading_message_survives_send (parse : String → Option StreamData)
    (so : StreamOutcome) (fo : FallbackOutcome) (dateStr : String) (now : Nat)
    (st : AppState)
    (hg : ¬(jsTrim st.inputValue = "" ∨ st.isLoading = true)) :
    (∀ m ∈ (handleSendMessage parse so fo dateStr now st).state.messages,
        m.isLoading = false) ∧
    (handleSendMessage parse so fo dateStr now st).state.isLoading = false := by
  rw [handleSendMessage_eq parse so fo dateStr now st hg]
  constructor
  · obtain ⟨c, hc⟩ := sendFinish_messages_shape fo dateStr st.inputValue now
      (handleAgentStream parse so dateStr st.inputValue now (sendPrepared now st))
    intro m hm
    dsimp only at hm
    rw [hc] at hm
    rcases List.mem_append.mp hm with h1 | h1
    · exact isLoading_false_of_mem_removeLoading _ _ h1
    · simp at h1
      subst h1
      rfl
  · rfl

/-- Closed instance of C9 on a concrete completed send. -/
theorem no_loading_message_survives_send_witness :
    (∀ m ∈ (handleSendMessage demoParse (StreamOutcome.ok ["data: F0"]) FallbackOutcome.fail
        "d" 7 demoState).state.messages, m.isLoading = false) ∧
    (handleSendMessage demoParse (StreamOutcome.ok ["data: F0"]) FallbackOutcome.fail
        "d" 7 demoState).state.isLoading = false :=
  no_loading_message_survives_send demoParse (StreamOutcome.ok ["data: F0"])
    FallbackOutcome.fail "d" 7 demoState (by decide)

/-! ## Claim C10 — the 500-character report gate -/

/-- C10: after a response r is received — from a final stream event with a
non-empty response, or from the fallback POST /api/chat — the report panel
is shown with currentReport equal to r exactly when r is non-empty and
longer than 500 characters (otherwise the report state keeps the reset
empty/hidden values); and a bot message renders as markdown exactly when
its content exceeds 500 characters, as plain pre-wrapped text otherwise. -/
theorem report_panel_gated_on_500_chars (parse : String → Option StreamData)
    (chunks : List String) (fo : FallbackOutcome) (dateStr : String) (now : Nat)
    (st : AppState) (r : String)
    (hg : ¬(jsTrim st.inputValue = "" ∨ st.isLoading = true))
    (hsrc : ((processStream parse chunks).result = some (some r) ∧ r ≠ "") ∨
            ((processStream parse chunks).result = none ∧ fo = FallbackOutcome.ok (some r))) :
    (((handleSendMessage parse (StreamOutcome.ok chunks) fo dateStr now st).state.showReportPanel = true ∧
      (handleSendMessage parse (StreamOutcome.ok chunks) fo dateStr now st).state.currentReport = r) ↔
      (r ≠ "" ∧ 500 < r.length)) ∧
    (∀ m : Message, m.type = MsgType.bot →
      ((renderMode m = RenderMode.markdown ↔ 500 < m.content.length) ∧
       (renderMode m = RenderMode.plainPre ↔ ¬ 500 < m.content.length))) := by
  constructor
  · rw [handleSendMessage_eq parse (StreamOutcome.ok chunks) fo dateStr now st hg]
    dsimp only
    rcases hsrc with ⟨hr, hne⟩ | ⟨hr, hfo⟩
    · have hres : (handleAgentStream parse (StreamOutcome.ok chunks) dateStr st.inputValue now
          (sendPrepared now st)).result = StreamResult.success (some r) := by
        rw [handleAgentStream_result, hr]
        rfl
      obtain ⟨hcr, hsp⟩ := sendFinish_report_of_truthy fo dateStr st.inputValue now _ r hres hne
      rw [hcr, hsp]
      have hpair := handleAgentStream_report_final parse chunks dateStr st.inputValue now
        (sendPrepared now st) r hr hne
      by_cases hlen : 500 < r.length
      · rw [if_pos hlen] at hpair
        have h1 : (handleAgentStream parse (StreamOutcome.ok chunks) dateStr st.inputValue now
            (sendPrepared now st)).state.currentReport = r := congrArg Prod.fst hpair
        have h2 : (handleAgentStream parse (StreamOutcome.ok chunks) dateStr st.inputValue now
            (sendPrepared now st)).state.showReportPanel = true := congrArg Prod.snd hpair
        rw [h1, h2]
        simp [hne, hlen]
      · rw [if_neg hlen] at hpair
        have h1 : (handleAgentStream parse (StreamOutcome.ok chunks) dateStr st.inputValue now
            (sendPrepared now st)).state.currentReport = (sendPrepared now st).currentReport :=
          congrArg Prod.fst hpair
        have h2 : (handleAgentStream parse (StreamOutcome.ok chunks) dateStr st.inputValue now
            (sendPrepared now st)).state.showReportPanel = (sendPrepared now st).showReportPanel :=
          congrArg Prod.snd hpair
        rw [h1, h2]
        simp [sendPrepared, hlen]
    · have hres : (handleAgentStream parse (StreamOutcome.ok chunks) dateStr st.inputValue now
          (sendPrepared now st)).result = StreamResult.success none := by
        rw [handleAgentStream_result, hr]
        rfl
      subst hfo
      have hpair := sendFinish_report_of_fallback dateStr st.inputValue now
        (handleAgentStream parse (StreamOutcome.ok chunks) dateStr st.inputValue now
          (sendPrepared now st)) r hres
      obtain ⟨hrepc, hreps⟩ := handleAgentStream_report_none parse chunks dateStr st.inputValue now
        (sendPrepared now st) hr
      by_cases hcond : r ≠ "" ∧ 500 < r.length
      · rw [if_pos hcond] at hpair
        have h1 := congrArg Prod.fst hpair
        have h2 := congrArg Prod.snd hpair
        dsimp only at h1 h2
        rw [h1, h2]
        simp [hcond]
      · rw [if_neg hcond] at hpair
        have h1 := congrArg Prod.fst hpair
        have h2 := congrArg Prod.snd hpair
        dsimp only at h1 h2
        rw [h1, h2, hrepc, hreps]
        simp [sendPrepared, hcond]
  · intro m hm
    unfold renderMode
    by_cases hlen : 500 < m.content.length
    · rw [if_pos ⟨hm, hlen⟩]
      simp [hlen]
    · rw [if_neg (fun hh => hlen hh.2)]
      simp [hlen]

set_option maxRecDepth 40000 in
/-- Closed instance of C10 at a 501-character final response. -/
theorem report_panel_gated_on_500_chars_witness :
    (((handleSendMessage demoParse (StreamOutcome.ok ["data: F"]) FallbackOutcome.fail
        "d" 7 demoState).state.showReportPanel = true ∧
      (handleSendMessage demoParse (StreamOutcome.ok ["data: F"]) FallbackOutcome.fail
        "d" 7 demoState).state.currentReport = demoReport) ↔
      (demoReport ≠ "" ∧ 500 < demoReport.length)) ∧
    (∀ m : Message, m.type = MsgType.bot →
      ((renderMode m = RenderMode.markdown ↔ 500 < m.content.length) ∧
       (renderMode m = RenderMode.plainPre ↔ ¬ 500 < m.content.length))) :=
  report_panel_gated_on_500_chars demoParse ["data: F"] FallbackOutcome.fail "d" 7 demoState
    demoReport (by decide) (Or.inl ⟨by decide, by decide⟩)

/-! ## Claim C4 — the error-event path (code bug) -/

set_option maxRecDepth 40000 in
/-- C4: evaluating the relay at a stream whose single data line parses to
an event of type error shows the thrown `new Error(data.message)` is caught
by the very try/catch wrapping `JSON.parse` on that line: the state is
unchanged (no error-status action is appended, no result is latched), the
stream is not aborted, and `handleSendMessage` — seeing no final response —
issues the fallback POST /api/chat, a second request for the same user
message, and shows the fallback's reply rather than the fixed
service-unavailable text.  (A failed stream request or a missing body
reader, by contrast, does reach the outer catch: one error-status action,
a rethrow, and the service-unavailable message.) -/
theorem error_event_swallowed_by_parse_catch :
    processStream demoParse ["data: E"] = { actions := [], result := none } ∧
    (handleSendMessage demoParse (StreamOutcome.ok ["data: E"]) (FallbackOutcome.ok (some "fb"))
        "d" 7 demoState).requests =
      [RequestRecord.streamPost { message := "分析腾讯", conversation_id := "default" },
       RequestRecord.chatPost { message := "分析腾讯", conversation_id := "default" }] ∧
    (handleSendMessage demoParse (StreamOutcome.ok ["data: E"]) (FallbackOutcome.ok (some "fb"))
        "d" 7 demoState).state.agentActions = [] ∧
    ((handleSendMessage demoParse (StreamOutcome.ok ["data: E"]) (FallbackOutcome.ok (some "fb"))
        "d" 7 demoState).state.messages).getLast? = some (respMessage 7 "fb") := by
  refine ⟨by decide, by decide, by decide, by decide⟩
